import Mathlib

/-!
# Startup configuration of the management REST service

A shallow embedding of `internal/config/config.go`: loading, defaulting and
validating the startup configuration (webserver settings, authentication
token, enabled modules).

Modelling conventions.

* Go strings are Lean strings (every string reaching this code is valid
  UTF-8: it is produced by the JSON decoder or read from the process
  environment); `len(s)` is the UTF-8 byte size.
* A Go pointer that may be `nil` is an `Option`; a slice that may be `nil`
  is an `Option (List _)`, so that `nil` and the empty non-nil slice differ.
* The process environment, the key set of `module.Store`, the width of `int`
  and the (randomised) `bcrypt.GenerateFromPassword` are the fields of `Sys`.
* A run either returns, exits through `os.Exit(1)`, or panics on a nil
  pointer dereference: see `Outcome`. Everything written through the logger is
  kept, in order.
-/

namespace Config

/-! ## The outside world -/

/-- Go `error` values are represented by their message. -/
abbrev GoError := String

deriving instance DecidableEq for Except

/-- Width of the Go `int` type on the build target (`strconv.IntSize`). -/
inductive Arch where
  | bits32
  | bits64
  deriving DecidableEq, Repr

/-- The constant `strconv.IntSize`. -/
def Arch.intSize : Arch → Nat
  | .bits32 => 32
  | .bits64 => 64

/-- Everything `config.go` reads from outside itself. -/
structure Sys where
  /-- the process environment: `none` is an unset variable -/
  env : String → Option String
  /-- the keys of the map `module.Store` -/
  Store : List String
  /-- the target architecture, which fixes the width of `int` -/
  arch : Arch
  /-- the call `bcrypt.GenerateFromPassword(password, cost)` of this run -/
  GenerateFromPassword : String → Nat → Except GoError String

/-- The function `os.Getenv`: the value of the variable, empty when it is unset. -/
def Sys.Getenv (sys : Sys) (key : String) : String :=
  (sys.env key).getD ""

def WMR_MODULES : String := "WMR_MODULES"
def WMR_TOKEN : String := "WMR_TOKEN"
def WMR_WEBSERVER_PORT : String := "WMR_WEBSERVER_PORT"
def WMR_WEBSERVER_DEBUG : String := "WMR_WEBSERVER_DEBUG"

/-- How a run of a function of this package ends. -/
inductive Outcome (α : Type) where
  /-- the function returned `val`, having logged `log` -/
  | ok (log : List String) (val : α)
  /-- the process was ended by `os.Exit(1)`, having logged `log` -/
  | exit (log : List String)
  /-- the process was ended by a nil pointer dereference -/
  | panic
  deriving DecidableEq, Repr

/-- Sequencing of two steps: the second runs on what the first returned, and
what it logs comes after what the first logged. -/
def Outcome.bind {α β : Type} : Outcome α → (α → Outcome β) → Outcome β
  | .ok log a, f =>
    match f a with
    | .ok log2 b => .ok (log ++ log2) b
    | .exit log2 => .exit (log ++ log2)
    | .panic => .panic
  | .exit log, _ => .exit log
  | .panic, _ => .panic

/-! ## The data model -/

structure Webserver where
  Debug : Bool
  Port : String
  deriving DecidableEq, Repr

structure Configuration where
  /-- the field of type `*Webserver`: `none` is the nil pointer -/
  Webserver : Option Webserver
  Token : String
  /-- the field of type `[]string`: `none` is the nil slice -/
  Modules : Option (List String)
  deriving DecidableEq, Repr

/-! ## The library functions used by the package

`strconv.Atoi`, `strconv.ParseBool` and `strings.Split` belong to the Go
standard library; they are transcribed here from their Go definitions. -/

/-- The two errors a `*strconv.NumError` can wrap. -/
inductive NumError where
  | ErrSyntax
  | ErrRange
  deriving DecidableEq, Repr

/-- The test `'0' <= c && c <= '9'`. -/
def isDigit (c : Char) : Bool :=
  decide ('0'.toNat ≤ c.toNat) && decide (c.toNat ≤ '9'.toNat)

/-- The digit value `c - '0'`. -/
def digitVal (c : Char) : Nat :=
  c.toNat - '0'.toNat

/-- The constant `maxUint64`. -/
def maxUint64 : Nat := 2 ^ 64 - 1

/-- The digit loop of `strconv.ParseUint` for base 10, with accumulator `n`:
the value reached and the error, if any. A byte that is not a decimal digit
is a syntax error (letters are digits of a larger base, and the underscore is
accepted for base 0 only); the two range checks are those of the Go loop, the
addition being taken modulo `2^64`. -/
def parseUintLoop (maxVal : Nat) : List Char → Nat → Nat × Option NumError
  | [], n => (n, none)
  | c :: cs, n =>
    if isDigit c then
      if n ≥ maxUint64 / 10 + 1 then
        (maxVal, some .ErrRange)
      else
        let n10 := n * 10
        let n1 := (n10 + digitVal c) % 2 ^ 64
        if n1 < n10 ∨ n1 > maxVal then
          (maxVal, some .ErrRange)
        else
          parseUintLoop maxVal cs n1
    else
      (0, some .ErrSyntax)

/-- The call `strconv.ParseUint(s, 10, bitSize)` with `bitSize` the width of
`int`, on the characters of `s`. -/
def ParseUint (bitSize : Nat) (s : List Char) : Nat × Option NumError :=
  if s = [] then (0, some .ErrSyntax)
  else parseUintLoop (2 ^ bitSize - 1) s 0

/-- The call `strconv.ParseInt(s, 10, 0)` on the characters of `s`, where
`bitSize` is the width of `int`: pick off the sign, convert the rest unsigned,
then check the range against `1 << (bitSize-1)`. -/
def ParseInt (bitSize : Nat) (s : List Char) : Int × Option NumError :=
  match s with
  | [] => (0, some .ErrSyntax)
  | c :: cs =>
    let neg := decide (c = '-')
    let rest := if c = '+' ∨ c = '-' then cs else c :: cs
    match ParseUint bitSize rest with
    | (_, some .ErrSyntax) => (0, some .ErrSyntax)
    | (un, _) =>
      let cutoff := 2 ^ (bitSize - 1)
      if !neg ∧ un ≥ cutoff then ((cutoff : Int) - 1, some .ErrRange)
      else if neg ∧ un > cutoff then (-(cutoff : Int), some .ErrRange)
      else (if neg then -(un : Int) else (un : Int), none)

/-- The digit loop of the fast path of `strconv.Atoi`, with accumulator `n`;
`none` is the syntax error. -/
def atoiFastLoop : List Char → Nat → Option Nat
  | [], n => some n
  | ch :: cs, n => if isDigit ch then atoiFastLoop cs (n * 10 + digitVal ch) else none

/-- The function `strconv.Atoi`: the value and the error, if any. Strings
short enough to fit `int` whatever their digits take the fast path; all
others go through `ParseInt`. -/
def Atoi (arch : Arch) (s : String) : Int × Option NumError :=
  let sLen := s.utf8ByteSize
  if (arch.intSize = 32 ∧ 0 < sLen ∧ sLen < 10) ∨ (arch.intSize = 64 ∧ 0 < sLen ∧ sLen < 19) then
    match s.data with
    | [] => (0, some .ErrSyntax)
    | c :: cs =>
      if (c = '-' ∨ c = '+') ∧ cs.length < 1 then (0, some .ErrSyntax)
      else
        let digits := if c = '-' ∨ c = '+' then cs else c :: cs
        match atoiFastLoop digits 0 with
        | none => (0, some .ErrSyntax)
        | some n => (if c = '-' then -(n : Int) else (n : Int), none)
  else
    ParseInt arch.intSize s.data

/-- The function `strconv.ParseBool`. -/
def ParseBool (str : String) : Except NumError Bool :=
  if str = "1" ∨ str = "t" ∨ str = "T" ∨ str = "TRUE" ∨ str = "true" ∨ str = "True" then
    .ok true
  else if str = "0" ∨ str = "f" ∨ str = "F" ∨ str = "FALSE" ∨ str = "false" ∨ str = "False" then
    .ok false
  else
    .error .ErrSyntax

/-- Cut the characters `s` at every occurrence of `sep`; `cur` holds, in
reverse, the characters of the piece being read. -/
def splitLoop (sep : Char) : List Char → List Char → List (List Char)
  | [], cur => [cur.reverse]
  | c :: cs, cur =>
    if c = sep then cur.reverse :: splitLoop sep cs []
    else splitLoop sep cs (c :: cur)

/-- The function `strings.Split` for a separator of one character: the
pieces of `s` between the occurrences of `sep`, so one piece more than there
are separators (the empty string gives one empty piece). -/
def Split (s : String) (sep : Char) : List String :=
  (splitLoop sep s.data []).map String.mk

/-! ## Module filter -/

/-- The function `loadModule`: starting from the empty slice, append every
element of `mod` that is a key of `module.Store`, scanning left to right. -/
def loadModule (sys : Sys) (mod : List String) : List String :=
  mod.foldl (fun toLoad m => if m ∈ sys.Store then toLoad ++ [m] else toLoad) []

/-! ## Webserver settings -/

/-- The method `(*Webserver).validate` on a non-nil receiver: default the
port, check that it converts with `Atoi`, then apply the debug override. -/
def Webserver.validate (sys : Sys) (w : Webserver) : Outcome Webserver :=
  let w := if w.Port = "" ∧ sys.Getenv WMR_WEBSERVER_PORT = "" then { w with Port := "9898" } else w
  let w := if w.Port = "" then { w with Port := sys.Getenv WMR_WEBSERVER_PORT } else w
  match (Atoi sys.arch w.Port).2 with
  | some _ => .exit [w.Port ++ " is not a valid webserver port"]
  | none =>
    let dbg := sys.Getenv WMR_WEBSERVER_DEBUG
    if dbg ≠ "" then
      match ParseBool dbg with
      | .error _ => .ok [dbg ++ " is not a valid webserver port"] w
      | .ok debug => .ok [] { w with Debug := debug }
    else
      .ok [] w

/-! ## Configuration aggregate -/

/-- The method `(*Configuration).HashToken`: the configuration afterwards and
the error returned (`none` is the nil error). -/
def Configuration.HashToken (sys : Sys) (c : Configuration) : Configuration × Option GoError :=
  match sys.GenerateFromPassword c.Token 14 with
  | .error err => (c, some err)
  | .ok bytes => ({ c with Token := bytes }, none)

/-- Line 31 of `validate`: the call `c.Webserver.validate()`. The method
reads `w.Port` first, which panics on the nil receiver. -/
def Configuration.validateWebserver (sys : Sys) (c : Configuration) : Outcome Configuration :=
  match c.Webserver with
  | none => .panic
  | some w =>
    match w.validate sys with
    | .ok log w2 => .ok log { c with Webserver := some w2 }
    | .exit log => .exit log
    | .panic => .panic

/-- Lines 32 to 38 of `validate`: the token taken from the input or from `WMR_TOKEN`. -/
def Configuration.resolveToken (sys : Sys) (c : Configuration) : Outcome Configuration :=
  if c.Token = "" ∧ sys.Getenv WMR_TOKEN = "" then
    .exit ["a valid authentication token must be set"]
  else if c.Token = "" then
    .ok [] { c with Token := sys.Getenv WMR_TOKEN }
  else
    .ok [] c

/-- Lines 39 to 42 of `validate`: the token commit, fatal when `HashToken` returns an error. -/
def Configuration.commitToken (sys : Sys) (c : Configuration) : Outcome Configuration :=
  match c.HashToken sys with
  | (_, some _) => .exit ["invalid token configuration"]
  | (c2, none) => .ok [] c2

/-- Lines 43 to 50 of `validate`: the module list taken from the input or from
`WMR_MODULES`, then filtered by `loadModule`. -/
def Configuration.resolveModules (sys : Sys) (c : Configuration) : Outcome Configuration :=
  if c.Modules = none ∧ sys.Getenv WMR_MODULES = "" then
    .exit ["at least a valid module must be set"]
  else
    let mods :=
      match c.Modules with
      | none => Split (sys.Getenv WMR_MODULES) ','
      | some m => m
    .ok [] { c with Modules := some (loadModule sys mods) }

/-- The part of `validate` that runs before the token commit (lines 31 to 38). -/
def Configuration.beforeCommit (sys : Sys) (c : Configuration) : Outcome Configuration :=
  (c.validateWebserver sys).bind (Configuration.resolveToken sys)

/-- The method `(*Configuration).validate`. -/
def Configuration.validate (sys : Sys) (c : Configuration) : Outcome Configuration :=
  ((c.beforeCommit sys).bind (Configuration.commitToken sys)).bind (Configuration.resolveModules sys)

/-! ## Loader -/

/-- The object under the key `webserver` of the input document; `none` is a
key that is absent or null. -/
structure WebserverJson where
  debug : Option Bool
  port : Option String
  deriving DecidableEq, Repr

/-- The input document as the JSON decoder reads it; `none` is a key that is
absent or null. -/
structure ConfigJson where
  webserver : Option WebserverJson
  auth_token : Option String
  modules : Option (List String)
  deriving DecidableEq, Repr

/-- What `Decode` stores into a fresh `Configuration`: a key that is absent
leaves the zero value of its field (nil pointer, empty string, nil slice, false). -/
def ConfigJson.decode (j : ConfigJson) : Configuration :=
  { Webserver := j.webserver.map (fun w => { Debug := w.debug.getD false, Port := w.port.getD "" }),
    Token := j.auth_token.getD "",
    Modules := j.modules }

/-- The function `loadJson`; the reader is given by what the decoder makes
of it, a document or an error. -/
def loadJson (r : Except GoError ConfigJson) : Outcome Configuration :=
  match r with
  | .error _ => .exit ["unable to read decode json"]
  | .ok j => .ok [] j.decode

/-- The function `InitConfig`; the value returned is the configuration that
`Manager` points to afterwards. -/
def InitConfig (sys : Sys) (r : Except GoError ConfigJson) : Outcome Configuration :=
  (loadJson r).bind (Configuration.validate sys)

/-! ## The resolution rules as the specification words them -/

/-- The port the specification resolves: the input port when it is not empty,
else the value of `WMR_WEBSERVER_PORT` when that is not empty, else `9898`. -/
def resolvedPort (sys : Sys) (w : Webserver) : String :=
  if w.Port ≠ "" then w.Port
  else if sys.Getenv WMR_WEBSERVER_PORT ≠ "" then sys.Getenv WMR_WEBSERVER_PORT
  else "9898"

/-- The debug flag the specification resolves: the boolean read from
`WMR_WEBSERVER_DEBUG` when the variable is set and reads as a boolean, else
the flag of the input. -/
def resolvedDebug (sys : Sys) (w : Webserver) : Bool :=
  match sys.env WMR_WEBSERVER_DEBUG with
  | none => w.Debug
  | some v =>
    match ParseBool v with
    | .ok b => b
    | .error _ => w.Debug

/-- The plaintext token the specification resolves: the input token when it
is not empty, else the value of `WMR_TOKEN`. -/
def resolvedToken (sys : Sys) (c : Configuration) : String :=
  if c.Token ≠ "" then c.Token else sys.Getenv WMR_TOKEN

/-- A syntactically well-formed decimal integer: an optional sign followed by
one or more digits. -/
def isDecimalInteger (s : String) : Bool :=
  match s.data with
  | [] => false
  | c :: cs =>
    if c = '+' ∨ c = '-' then !cs.isEmpty && cs.all isDigit
    else (c :: cs).all isDigit

/-- The number a string of decimal digits denotes. -/
def digitsValue (ds : List Char) : Nat :=
  ds.foldl (fun n c => n * 10 + digitVal c) 0

/-- The integer a well-formed decimal integer denotes. -/
def decimalValue (s : String) : Int :=
  match s.data with
  | [] => 0
  | c :: cs =>
    if c = '-' then -(digitsValue cs : Int)
    else if c = '+' then (digitsValue cs : Int)
    else (digitsValue (c :: cs) : Int)

/-- What the debug step of `Webserver.validate` logs. -/
def debugLog (sys : Sys) : List String :=
  if sys.Getenv WMR_WEBSERVER_DEBUG ≠ "" then
    match ParseBool (sys.Getenv WMR_WEBSERVER_DEBUG) with
    | .error _ => [sys.Getenv WMR_WEBSERVER_DEBUG ++ " is not a valid webserver port"]
    | .ok _ => []
  else []

/-- The failure condition of `validate` as the specification lists it, for a
configuration whose webserver is `w`: the resolved port does not convert, or
the input token and `WMR_TOKEN` are both empty, or the hash call returns an
error, or the input module list is missing and `WMR_MODULES` is empty. -/
def validationFails (sys : Sys) (c : Configuration) (w : Webserver) : Prop :=
  (Atoi sys.arch (resolvedPort sys w)).2 ≠ none ∨
  (c.Token = "" ∧ sys.Getenv WMR_TOKEN = "") ∨
  (∃ err, sys.GenerateFromPassword (resolvedToken sys c) 14 = .error err) ∨
  (c.Modules = none ∧ sys.Getenv WMR_MODULES = "")

/-! ## Worlds for the concrete runs -/

/-- The encoded hash returned by the hash call of the concrete runs. -/
def sampleHash : String := "$2a$14$N9qo8uLOickgx2ZMRZoMyeIjZAgcfl7p92ldGxad68LJZdL17lhWy"

/-- A world with the given target, environment variables and registry keys,
in which the hash call succeeds. -/
def sysOf (arch : Arch) (vars : List (String × String)) (store : List String) : Sys :=
  { env := fun k => vars.lookup k,
    Store := store,
    arch := arch,
    GenerateFromPassword := fun _ _ => .ok sampleHash }

/-- A hash call that fails, as `bcrypt` does when no salt can be read. -/
def bcryptFails (_password : String) (_cost : Nat) : Except GoError String :=
  .error "unexpected EOF"

/-! ## Lemmas on the steps of validation -/

theorem loadModule_foldl (store : List String) (mod acc : List String) :
    mod.foldl (fun toLoad m => if m ∈ store then toLoad ++ [m] else toLoad) acc
      = acc ++ mod.filter (fun m => decide (m ∈ store)) := by
  induction mod generalizing acc with
  | nil => simp
  | cons m ms ih =>
    by_cases h : m ∈ store
    · simp [List.foldl_cons, List.filter_cons, h, ih]
    · simp [List.foldl_cons, List.filter_cons, h, ih]

theorem loadModule_eq_filter (sys : Sys) (mod : List String) :
    loadModule sys mod = mod.filter (fun m => decide (m ∈ sys.Store)) := by
  simp [loadModule, loadModule_foldl]

theorem ParseBool_empty : ParseBool "" = .error .ErrSyntax := by decide

theorem Webserver_validate_eq (sys : Sys) (w : Webserver) :
    w.validate sys =
      match (Atoi sys.arch (resolvedPort sys w)).2 with
      | some _ => .exit [resolvedPort sys w ++ " is not a valid webserver port"]
      | none => .ok (debugLog sys) ⟨resolvedDebug sys w, resolvedPort sys w⟩ := by
  have hport : (if (if w.Port = "" ∧ sys.Getenv WMR_WEBSERVER_PORT = "" then
        { w with Port := "9898" } else w).Port = "" then
          { (if w.Port = "" ∧ sys.Getenv WMR_WEBSERVER_PORT = "" then
              { w with Port := "9898" } else w) with Port := sys.Getenv WMR_WEBSERVER_PORT }
        else (if w.Port = "" ∧ sys.Getenv WMR_WEBSERVER_PORT = "" then
              { w with Port := "9898" } else w)) = ⟨w.Debug, resolvedPort sys w⟩ := by
    unfold resolvedPort
    by_cases h1 : w.Port = "" <;> by_cases h2 : sys.Getenv WMR_WEBSERVER_PORT = "" <;>
      simp [h1, h2]
  unfold Webserver.validate
  simp only [hport]
  cases hA : (Atoi sys.arch (resolvedPort sys w)).2 with
  | some e => rfl
  | none =>
    simp only [debugLog, resolvedDebug, Sys.Getenv]
    cases hE : sys.env WMR_WEBSERVER_DEBUG with
    | none => simp
    | some v =>
      by_cases hv : v = ""
      · subst hv
        simp [ParseBool_empty]
      · simp only [Option.getD_some, ne_eq, hv, not_false_eq_true, if_true]
        cases ParseBool v <;> rfl

theorem Outcome_ok_bind {α β : Type} (log : List String) (a : α) (f : α → Outcome β) :
    (Outcome.ok log a).bind f =
      match f a with
      | .ok log2 b => .ok (log ++ log2) b
      | .exit log2 => .exit (log ++ log2)
      | .panic => .panic := rfl

theorem resolvedToken_eq_empty (sys : Sys) (c : Configuration) :
    resolvedToken sys c = "" ↔ c.Token = "" ∧ sys.Getenv WMR_TOKEN = "" := by
  unfold resolvedToken
  by_cases h : c.Token = "" <;> simp [h]

/-- The part of `validate` before the commit, on a configuration with a webserver. -/
theorem beforeCommit_eq (sys : Sys) (c : Configuration) (w : Webserver)
    (hw : c.Webserver = some w) :
    c.beforeCommit sys =
      match (Atoi sys.arch (resolvedPort sys w)).2 with
      | some _ => .exit [resolvedPort sys w ++ " is not a valid webserver port"]
      | none =>
        if resolvedToken sys c = "" then
          .exit (debugLog sys ++ ["a valid authentication token must be set"])
        else
          .ok (debugLog sys)
            ⟨some ⟨resolvedDebug sys w, resolvedPort sys w⟩, resolvedToken sys c, c.Modules⟩ := by
  unfold Configuration.beforeCommit Configuration.validateWebserver
  rw [hw]
  simp only [Webserver_validate_eq]
  cases hA : (Atoi sys.arch (resolvedPort sys w)).2 with
  | some e => rfl
  | none =>
    simp only [Outcome_ok_bind, Configuration.resolveToken, resolvedToken]
    by_cases h1 : c.Token = "" <;> by_cases h2 : sys.Getenv WMR_TOKEN = "" <;>
      simp [h1, h2]

/-- The whole of `validate` on a configuration with a webserver, check by check. -/
theorem Configuration_validate_eq (sys : Sys) (c : Configuration) (w : Webserver)
    (hw : c.Webserver = some w) :
    c.validate sys =
      match (Atoi sys.arch (resolvedPort sys w)).2 with
      | some _ => .exit [resolvedPort sys w ++ " is not a valid webserver port"]
      | none =>
        if resolvedToken sys c = "" then
          .exit (debugLog sys ++ ["a valid authentication token must be set"])
        else
          match sys.GenerateFromPassword (resolvedToken sys c) 14 with
          | .error _ => .exit (debugLog sys ++ ["invalid token configuration"])
          | .ok hash =>
            if c.Modules = none ∧ sys.Getenv WMR_MODULES = "" then
              .exit (debugLog sys ++ ["at least a valid module must be set"])
            else
              .ok (debugLog sys)
                ⟨some ⟨resolvedDebug sys w, resolvedPort sys w⟩, hash,
                  some (loadModule sys
                    (match c.Modules with
                     | none => Split (sys.Getenv WMR_MODULES) ','
                     | some m => m))⟩ := by
  unfold Configuration.validate
  rw [beforeCommit_eq sys c w hw]
  cases hA : (Atoi sys.arch (resolvedPort sys w)).2 with
  | some e => rfl
  | none =>
    by_cases ht : resolvedToken sys c = ""
    · simp [ht, Outcome.bind]
    · simp only [ht, if_false, Outcome_ok_bind, Configuration.commitToken,
        Configuration.HashToken]
      cases hH : sys.GenerateFromPassword (resolvedToken sys c) 14 with
      | error e => simp [Outcome.bind]
      | ok hash =>
        by_cases hm : c.Modules = none ∧ sys.Getenv WMR_MODULES = ""
        · simp [hm, Outcome.bind, Configuration.resolveModules]
        · simp [hm, Outcome.bind, Configuration.resolveModules]

/-- Without a webserver, `validate` panics at its first statement. -/
theorem Configuration_validate_nil (sys : Sys) (c : Configuration) (hw : c.Webserver = none) :
    c.validate sys = .panic := by
  simp [Configuration.validate, Configuration.beforeCommit, Configuration.validateWebserver, hw,
    Outcome.bind]

/-- The resolved debug flag depends on the environment through `Getenv` only. -/
theorem resolvedDebug_eq_Getenv (sys : Sys) (w : Webserver) :
    resolvedDebug sys w =
      match ParseBool (sys.Getenv WMR_WEBSERVER_DEBUG) with
      | .ok b => b
      | .error _ => w.Debug := by
  unfold resolvedDebug Sys.Getenv
  cases sys.env WMR_WEBSERVER_DEBUG with
  | none => simp [ParseBool_empty]
  | some v => rfl

/-! ## Conversion of decimal integers -/

theorem foldl_digits_ge (ds : List Char) (n : Nat) :
    n ≤ ds.foldl (fun n c => n * 10 + digitVal c) n := by
  induction ds generalizing n with
  | nil => simp
  | cons c cs ih =>
    simp only [List.foldl_cons]
    exact le_trans (by omega) (ih _)

/-- On digits whose value fits `maxVal`, the loop of `ParseUint` returns that value. -/
theorem parseUintLoop_digits (maxVal : Nat) (hmax : maxVal < 2 ^ 64) (ds : List Char) (n : Nat)
    (hd : ds.all isDigit = true)
    (hv : ds.foldl (fun n c => n * 10 + digitVal c) n ≤ maxVal) :
    parseUintLoop maxVal ds n = (ds.foldl (fun n c => n * 10 + digitVal c) n, none) := by
  induction ds generalizing n with
  | nil => rfl
  | cons c cs ih =>
    simp only [List.all_cons, Bool.and_eq_true] at hd
    simp only [List.foldl_cons] at hv ⊢
    have h1 := foldl_digits_ge cs (n * 10 + digitVal c)
    have h2 : n * 10 + digitVal c ≤ maxVal := le_trans h1 hv
    have hn : ¬ n ≥ maxUint64 / 10 + 1 := by
      unfold maxUint64
      omega
    have hmod : (n * 10 + digitVal c) % 2 ^ 64 = n * 10 + digitVal c :=
      Nat.mod_eq_of_lt (by omega)
    have hlt : ¬ (n * 10 + digitVal c < n * 10 ∨ n * 10 + digitVal c > maxVal) := by omega
    unfold parseUintLoop
    simp only [hd.1, if_true, hn, if_false, hmod, hlt]
    exact ih _ hd.2 hv

/-- The fast path of `Atoi` accepts every string of digits. -/
theorem atoiFastLoop_digits (ds : List Char) (n : Nat) (hd : ds.all isDigit = true) :
    atoiFastLoop ds n = some (ds.foldl (fun n c => n * 10 + digitVal c) n) := by
  induction ds generalizing n with
  | nil => rfl
  | cons c cs ih =>
    simp only [List.all_cons, Bool.and_eq_true] at hd
    simp only [atoiFastLoop, hd.1, if_true, List.foldl_cons]
    exact ih _ hd.2

/-- On digits whose value fits the unsigned range, `ParseUint` returns that value. -/
theorem ParseUint_digits (arch : Arch) (ds : List Char) (hne : ds ≠ [])
    (hd : ds.all isDigit = true) (hv : digitsValue ds ≤ 2 ^ arch.intSize - 1) :
    ParseUint arch.intSize ds = (digitsValue ds, none) := by
  unfold ParseUint
  rw [if_neg hne]
  refine parseUintLoop_digits _ ?_ ds 0 hd hv
  cases arch <;> simp [Arch.intSize]

/-- The sign and the digits of a well-formed decimal integer, with its value. -/
theorem decimal_cases (s : String) (hwf : isDecimalInteger s = true) :
    ∃ c cs, s.data = c :: cs ∧
      ((c = '-' ∧ cs ≠ [] ∧ cs.all isDigit = true ∧ decimalValue s = -(digitsValue cs : Int)) ∨
       (c = '+' ∧ cs ≠ [] ∧ cs.all isDigit = true ∧ decimalValue s = (digitsValue cs : Int)) ∨
       (c ≠ '-' ∧ c ≠ '+' ∧ (c :: cs).all isDigit = true ∧
          decimalValue s = (digitsValue (c :: cs) : Int))) := by
  unfold isDecimalInteger at hwf
  unfold decimalValue
  cases hs : s.data with
  | nil => rw [hs] at hwf; cases hwf
  | cons c cs =>
    rw [hs] at hwf
    refine ⟨c, cs, rfl, ?_⟩
    by_cases hm : c = '-'
    · subst hm
      simp only [or_true, if_true, Bool.and_eq_true, Bool.not_eq_true', List.isEmpty_eq_false] at hwf
      exact Or.inl ⟨rfl, hwf.1, hwf.2, by simp⟩
    · by_cases hp : c = '+'
      · subst hp
        simp only [true_or, if_true, Bool.and_eq_true, Bool.not_eq_true',
          List.isEmpty_eq_false] at hwf
        exact Or.inr (Or.inl ⟨rfl, hwf.1, hwf.2, by simp [hm]⟩)
      · simp only [hm, hp, or_self, if_false] at hwf
        exact Or.inr (Or.inr ⟨hm, hp, hwf, by simp [hm, hp]⟩)

/-- `ParseInt` accepts every well-formed decimal integer whose value fits `int`. -/
theorem ParseInt_decimal_in_range (arch : Arch) (s : String) (hwf : isDecimalInteger s = true)
    (hlo : -(2 : Int) ^ (arch.intSize - 1) ≤ decimalValue s)
    (hhi : decimalValue s ≤ (2 : Int) ^ (arch.intSize - 1) - 1) :
    (ParseInt arch.intSize s.data).2 = none := by
  obtain ⟨c, cs, hs, h⟩ := decimal_cases s hwf
  rw [hs]
  have hpow : (2 : Nat) ^ (arch.intSize - 1) ≤ 2 ^ arch.intSize - 1 := by
    cases arch <;> simp [Arch.intSize]
  rcases h with ⟨rfl, hne, hd, hval⟩ | ⟨rfl, hne, hd, hval⟩ | ⟨hm, hp, hd, hval⟩
  · have hv : digitsValue cs ≤ 2 ^ (arch.intSize - 1) := by
      rw [hval] at hlo
      have : ((digitsValue cs : Nat) : Int) ≤ ((2 ^ (arch.intSize - 1) : Nat) : Int) := by
        push_cast; omega
      exact_mod_cast this
    have hu := ParseUint_digits arch cs hne hd (le_trans hv hpow)
    simp only [ParseInt, or_true, if_true, hu]
    simp [Nat.not_lt.mpr hv]
  · have hv : digitsValue cs < 2 ^ (arch.intSize - 1) := by
      rw [hval] at hhi
      have : ((digitsValue cs : Nat) : Int) < ((2 ^ (arch.intSize - 1) : Nat) : Int) := by
        push_cast; omega
      exact_mod_cast this
    have hu := ParseUint_digits arch cs hne hd (le_trans (le_of_lt hv) hpow)
    have hneg : ('+' : Char) ≠ '-' := by decide
    simp only [ParseInt, true_or, if_true, hu]
    simp [hneg, Nat.not_le.mpr hv]
  · have hv : digitsValue (c :: cs) < 2 ^ (arch.intSize - 1) := by
      rw [hval] at hhi
      have : ((digitsValue (c :: cs) : Nat) : Int) < ((2 ^ (arch.intSize - 1) : Nat) : Int) := by
        push_cast; omega
      exact_mod_cast this
    have hu := ParseUint_digits arch (c :: cs) (by simp) hd (le_trans (le_of_lt hv) hpow)
    simp only [ParseInt, hm, hp, or_self, if_false, hu]
    simp [Nat.not_le.mpr hv]

/-- `Atoi` accepts every well-formed decimal integer whose value fits `int`. -/
theorem Atoi_decimal_in_range (arch : Arch) (s : String) (hwf : isDecimalInteger s = true)
    (hlo : -(2 : Int) ^ (arch.intSize - 1) ≤ decimalValue s)
    (hhi : decimalValue s ≤ (2 : Int) ^ (arch.intSize - 1) - 1) :
    (Atoi arch s).2 = none := by
  unfold Atoi
  simp only
  split
  · obtain ⟨c, cs, hs, h⟩ := decimal_cases s hwf
    rw [hs]
    rcases h with ⟨rfl, hne, hd, -⟩ | ⟨rfl, hne, hd, -⟩ | ⟨hm, hp, hd, -⟩
    · have hl : ¬ cs.length < 1 := by
        cases cs with
        | nil => exact absurd rfl hne
        | cons a as => simp
      simp [hl, atoiFastLoop_digits cs 0 hd]
    · have hl : ¬ cs.length < 1 := by
        cases cs with
        | nil => exact absurd rfl hne
        | cons a as => simp
      simp [hl, atoiFastLoop_digits cs 0 hd]
    · simp [hm, hp, atoiFastLoop_digits (c :: cs) 0 hd]
  · exact ParseInt_decimal_in_range arch s hwf hlo hhi

theorem digitVal_le_nine (c : Char) (h : isDigit c = true) : digitVal c ≤ 9 := by
  have h0 : '0'.toNat = 48 := by decide
  have h9 : '9'.toNat = 57 := by decide
  simp only [isDigit, Bool.and_eq_true, decide_eq_true_eq, h0, h9] at h
  simp only [digitVal, h0]
  omega

/-- On digits, the loop of `ParseUint` returns their value when it fits
`maxVal` and the range error when it does not. -/
theorem parseUintLoop_digits_eq (maxVal : Nat) (hmax : maxVal < 2 ^ 64) (ds : List Char)
    (n : Nat) (hd : ds.all isDigit = true) (hn : n ≤ maxVal) :
    parseUintLoop maxVal ds n =
      if ds.foldl (fun n c => n * 10 + digitVal c) n ≤ maxVal then
        (ds.foldl (fun n c => n * 10 + digitVal c) n, none)
      else (maxVal, some .ErrRange) := by
  induction ds generalizing n with
  | nil => simp [parseUintLoop, hn]
  | cons c cs ih =>
    simp only [List.all_cons, Bool.and_eq_true] at hd
    have h9 := digitVal_le_nine c hd.1
    have hge := foldl_digits_ge cs (n * 10 + digitVal c)
    simp only [List.foldl_cons]
    unfold parseUintLoop
    simp only [hd.1, if_true]
    by_cases hc : n ≥ maxUint64 / 10 + 1
    · have hbig : ¬ List.foldl (fun n c => n * 10 + digitVal c) (n * 10 + digitVal c) cs
          ≤ maxVal := by
        unfold maxUint64 at hc
        omega
      simp only [hc, if_true, hbig, if_false]
    · simp only [hc, if_false]
      unfold maxUint64 at hc
      by_cases hov : n * 10 + digitVal c < 2 ^ 64
      · have hmod : (n * 10 + digitVal c) % 2 ^ 64 = n * 10 + digitVal c :=
          Nat.mod_eq_of_lt hov
        rw [hmod]
        by_cases h1 : n * 10 + digitVal c > maxVal
        · have hbig : ¬ List.foldl (fun n c => n * 10 + digitVal c) (n * 10 + digitVal c) cs
              ≤ maxVal := by omega
          have hor : n * 10 + digitVal c < n * 10 ∨ n * 10 + digitVal c > maxVal := Or.inr h1
          simp only [hor, if_true, hbig, if_false]
        · have hor : ¬ (n * 10 + digitVal c < n * 10 ∨ n * 10 + digitVal c > maxVal) := by omega
          simp only [hor, if_false]
          exact ih _ hd.2 (by omega)
      · have hbig : ¬ List.foldl (fun n c => n * 10 + digitVal c) (n * 10 + digitVal c) cs
            ≤ maxVal := by omega
        have hor : (n * 10 + digitVal c) % 2 ^ 64 < n * 10 ∨
            (n * 10 + digitVal c) % 2 ^ 64 > maxVal := by
          left
          omega
        simp only [hor, if_true, hbig, if_false]

/-- On a non-empty string of digits `ParseUint` returns their value when it
fits the unsigned range and the range error when it does not. -/
theorem ParseUint_digits_eq (arch : Arch) (ds : List Char) (hne : ds ≠ [])
    (hd : ds.all isDigit = true) :
    ParseUint arch.intSize ds =
      if digitsValue ds ≤ 2 ^ arch.intSize - 1 then (digitsValue ds, none)
      else (2 ^ arch.intSize - 1, some .ErrRange) := by
  unfold ParseUint
  rw [if_neg hne]
  refine parseUintLoop_digits_eq _ ?_ ds 0 hd (Nat.zero_le _)
  cases arch <;> simp [Arch.intSize]

/-- A string of digits denotes less than ten to the power of its length. -/
theorem foldl_digits_lt (ds : List Char) (n : Nat) (hd : ds.all isDigit = true) :
    ds.foldl (fun n c => n * 10 + digitVal c) n + 1 ≤ (n + 1) * 10 ^ ds.length := by
  induction ds generalizing n with
  | nil => simp
  | cons c cs ih =>
    simp only [List.all_cons, Bool.and_eq_true] at hd
    have h9 := digitVal_le_nine c hd.1
    simp only [List.foldl_cons, List.length_cons]
    refine le_trans (ih _ hd.2) ?_
    have : n * 10 + digitVal c + 1 ≤ (n + 1) * 10 := by omega
    calc (n * 10 + digitVal c + 1) * 10 ^ cs.length
        ≤ ((n + 1) * 10) * 10 ^ cs.length := Nat.mul_le_mul_right _ this
      _ = (n + 1) * 10 ^ (cs.length + 1) := by ring

/-- The byte size of a string is at least its number of characters. -/
theorem length_le_utf8ByteSize (s : String) : s.data.length ≤ s.utf8ByteSize := by
  have key : ∀ cs : List Char, cs.length ≤ String.utf8ByteSize.go cs := by
    intro cs
    induction cs with
    | nil => simp [String.utf8ByteSize.go]
    | cons c cs ih =>
      have := Char.utf8Size_pos c
      simp only [String.utf8ByteSize.go, List.length_cons]
      omega
  exact key s.data

theorem ParseInt_minus_digits (arch : Arch) (cs : List Char) (hne : cs ≠ [])
    (hd : cs.all isDigit = true) :
    (ParseInt arch.intSize ('-' :: cs)).2 = none ↔ digitsValue cs ≤ 2 ^ (arch.intSize - 1) := by
  have hu := ParseUint_digits_eq arch cs hne hd
  simp only [ParseInt, or_true, if_true, hu]
  by_cases hv : digitsValue cs ≤ 2 ^ arch.intSize - 1
  · simp only [hv, if_true]
    by_cases h2 : digitsValue cs ≤ 2 ^ (arch.intSize - 1)
    · simp [h2, Nat.not_lt.mpr h2]
    · simp [h2, Nat.lt_of_not_le h2]
  · have h2 : ¬ digitsValue cs ≤ 2 ^ (arch.intSize - 1) := by
      cases arch <;> simp only [Arch.intSize] at hv ⊢ <;> omega
    have h3 : 2 ^ arch.intSize - 1 > 2 ^ (arch.intSize - 1) := by
      cases arch <;> simp [Arch.intSize]
    simp [hv, h2, h3]

theorem ParseInt_plus_digits (arch : Arch) (cs : List Char) (hne : cs ≠ [])
    (hd : cs.all isDigit = true) :
    (ParseInt arch.intSize ('+' :: cs)).2 = none ↔ digitsValue cs < 2 ^ (arch.intSize - 1) := by
  have hu := ParseUint_digits_eq arch cs hne hd
  have hneg : ('+' : Char) ≠ '-' := by decide
  simp only [ParseInt, true_or, if_true, hu]
  by_cases hv : digitsValue cs ≤ 2 ^ arch.intSize - 1
  · simp only [hv, if_true]
    by_cases h2 : digitsValue cs < 2 ^ (arch.intSize - 1)
    · simp [hneg, h2, Nat.not_le.mpr h2]
    · simp [hneg, h2, Nat.le_of_not_lt h2]
  · have h2 : ¬ digitsValue cs < 2 ^ (arch.intSize - 1) := by
      cases arch <;> simp only [Arch.intSize] at hv ⊢ <;> omega
    have h3 : 2 ^ (arch.intSize - 1) ≤ 2 ^ arch.intSize - 1 := by
      cases arch <;> simp [Arch.intSize]
    simp [hneg, hv, h2, h3]

theorem ParseInt_unsigned_digits (arch : Arch) (c : Char) (cs : List Char) (hm : c ≠ '-')
    (hp : c ≠ '+') (hd : (c :: cs).all isDigit = true) :
    (ParseInt arch.intSize (c :: cs)).2 = none ↔
      digitsValue (c :: cs) < 2 ^ (arch.intSize - 1) := by
  have hu := ParseUint_digits_eq arch (c :: cs) (by simp) hd
  simp only [ParseInt, hm, hp, or_self, if_false, hu]
  by_cases hv : digitsValue (c :: cs) ≤ 2 ^ arch.intSize - 1
  · simp only [hv, if_true]
    by_cases h2 : digitsValue (c :: cs) < 2 ^ (arch.intSize - 1)
    · simp [h2, Nat.not_le.mpr h2]
    · simp [h2, Nat.le_of_not_lt h2]
  · have h2 : ¬ digitsValue (c :: cs) < 2 ^ (arch.intSize - 1) := by
      cases arch <;> simp only [Arch.intSize] at hv ⊢ <;> omega
    have h3 : 2 ^ (arch.intSize - 1) ≤ 2 ^ arch.intSize - 1 := by
      cases arch <;> simp [Arch.intSize]
    simp [hv, h2, h3]

theorem int_range_of_neg (v B : Nat) :
    (-(2 : Int) ^ B ≤ -(v : Int) ∧ -(v : Int) ≤ (2 : Int) ^ B - 1) ↔ v ≤ 2 ^ B := by
  have h2 : (2 : Int) ^ B = ((2 ^ B : Nat) : Int) := by push_cast; rfl
  have hpos : 0 < 2 ^ B := by positivity
  rw [h2]
  omega

theorem int_range_of_nonneg (v B : Nat) :
    (-(2 : Int) ^ B ≤ (v : Int) ∧ (v : Int) ≤ (2 : Int) ^ B - 1) ↔ v < 2 ^ B := by
  have h2 : (2 : Int) ^ B = ((2 ^ B : Nat) : Int) := by push_cast; rfl
  have hpos : 0 < 2 ^ B := by positivity
  rw [h2]
  omega

/-- Digits that take the fast path of `Atoi` denote a value that fits `int`. -/
theorem digitsValue_lt_of_fast (arch : Arch) (ds : List Char) (hd : ds.all isDigit = true)
    (sLen : Nat) (hlen : ds.length ≤ sLen)
    (hfast : (arch.intSize = 32 ∧ 0 < sLen ∧ sLen < 10) ∨
      (arch.intSize = 64 ∧ 0 < sLen ∧ sLen < 19)) :
    digitsValue ds < 2 ^ (arch.intSize - 1) := by
  have hlt := foldl_digits_lt ds 0 hd
  simp only [Nat.zero_add, Nat.one_mul] at hlt
  unfold digitsValue
  cases arch with
  | bits32 =>
    simp only [Arch.intSize] at hfast ⊢
    have hk : ds.length ≤ 9 := by omega
    have hpow : 10 ^ ds.length ≤ 10 ^ 9 := Nat.pow_le_pow_right (by norm_num) hk
    have h1 : (10 : Nat) ^ 9 < 2 ^ (32 - 1) := by norm_num
    omega
  | bits64 =>
    simp only [Arch.intSize] at hfast ⊢
    have hk : ds.length ≤ 18 := by omega
    have hpow : 10 ^ ds.length ≤ 10 ^ 18 := Nat.pow_le_pow_right (by norm_num) hk
    have h1 : (10 : Nat) ^ 18 < 2 ^ (64 - 1) := by norm_num
    omega

/-- On well-formed decimal integers `Atoi` succeeds exactly when the value fits `int`. -/
theorem Atoi_decimal_iff (arch : Arch) (s : String) (hwf : isDecimalInteger s = true) :
    (Atoi arch s).2 = none ↔
      (-(2 : Int) ^ (arch.intSize - 1) ≤ decimalValue s ∧
        decimalValue s ≤ (2 : Int) ^ (arch.intSize - 1) - 1) := by
  constructor
  · intro hA
    obtain ⟨c, cs, hs, h⟩ := decimal_cases s hwf
    have hbyte := length_le_utf8ByteSize s
    rw [hs, List.length_cons] at hbyte
    by_cases hfast : (arch.intSize = 32 ∧ 0 < s.utf8ByteSize ∧ s.utf8ByteSize < 10) ∨
        (arch.intSize = 64 ∧ 0 < s.utf8ByteSize ∧ s.utf8ByteSize < 19)
    · rcases h with ⟨-, -, hd, hval⟩ | ⟨-, -, hd, hval⟩ | ⟨-, -, hd, hval⟩
      · rw [hval, int_range_of_neg]
        exact le_of_lt (digitsValue_lt_of_fast arch cs hd _ (by omega) hfast)
      · rw [hval, int_range_of_nonneg]
        exact digitsValue_lt_of_fast arch cs hd _ (by omega) hfast
      · rw [hval, int_range_of_nonneg]
        exact digitsValue_lt_of_fast arch (c :: cs) hd _ (by simpa using hbyte) hfast
    · unfold Atoi at hA
      simp only [hfast, if_false, hs] at hA
      rcases h with ⟨rfl, hne, hd, hval⟩ | ⟨rfl, hne, hd, hval⟩ | ⟨hm, hp, hd, hval⟩
      · rw [hval, int_range_of_neg]
        exact (ParseInt_minus_digits arch cs hne hd).1 hA
      · rw [hval, int_range_of_nonneg]
        exact (ParseInt_plus_digits arch cs hne hd).1 hA
      · rw [hval, int_range_of_nonneg]
        exact (ParseInt_unsigned_digits arch c cs hm hp hd).1 hA
  · rintro ⟨hlo, hhi⟩
    exact Atoi_decimal_in_range arch s hwf hlo hhi

/-! ## The claims -/

/-- C1: `loadModule` is the order-preserving registry filter. For every
registry and every requested list, the result is the list of the requested
names that are keys of the registry, in their order and with duplicates kept;
with registry {a,b}, [a,x,b] gives [a,b] and [a,a] gives [a,a]. -/
theorem loadModule_is_registry_filter (sys : Sys) (mod : List String) :
    loadModule sys mod = mod.filter (fun m => decide (m ∈ sys.Store)) ∧
    loadModule { sys with Store := ["a", "b"] } ["a", "x", "b"] = ["a", "b"] ∧
    loadModule { sys with Store := ["a", "b"] } ["a", "a"] = ["a", "a"] := by
  refine ⟨loadModule_eq_filter sys mod, ?_, ?_⟩
  · rw [loadModule_eq_filter]
    show List.filter (fun m => decide (m ∈ ["a", "b"])) ["a", "x", "b"] = ["a", "b"]
    decide
  · rw [loadModule_eq_filter]
    show List.filter (fun m => decide (m ∈ ["a", "b"])) ["a", "a"] = ["a", "a"]
    decide

/-- C2 (the code at the failing input): a document without the `webserver`
key decodes to a nil webserver pointer, and `InitConfig` then panics inside
`validate` whatever the token, the modules, the registry and the environment
are; so it does on the document with token "secret" and modules [a], while
the same document with an empty `webserver` object is published with port
9898 and debug false. -/
theorem InitConfig_without_webserver_panics (sys : Sys) (tok : Option String)
    (mods : Option (List String)) :
    InitConfig sys (.ok ⟨none, tok, mods⟩) = .panic ∧
    InitConfig (sysOf .bits64 [] ["a"]) (.ok ⟨none, some "secret", some ["a"]⟩) = .panic ∧
    InitConfig (sysOf .bits64 [] ["a"]) (.ok ⟨some ⟨none, none⟩, some "secret", some ["a"]⟩)
      = .ok [] ⟨some ⟨false, "9898"⟩, sampleHash, some ["a"]⟩ := by
  refine ⟨?_, by decide, by decide⟩
  simp [InitConfig, loadJson, ConfigJson.decode, Outcome.bind, Configuration_validate_nil]

/-- C3: no token implies fatal. When the input token is empty and `WMR_TOKEN`
is empty or unset, `validate` never returns a configuration: it ends the
process, through `os.Exit(1)` whenever the configuration has a webserver
(with the message about the token when the port is accepted). -/
theorem validate_no_token_is_fatal (sys : Sys) (c : Configuration)
    (htok : c.Token = "") (henv : sys.Getenv WMR_TOKEN = "") :
    (∀ log c2, c.validate sys ≠ .ok log c2) ∧
    (∀ w, c.Webserver = some w → ∃ log, c.validate sys = .exit log) ∧
    (∀ w, c.Webserver = some w → (Atoi sys.arch (resolvedPort sys w)).2 = none →
      c.validate sys = .exit (debugLog sys ++ ["a valid authentication token must be set"])) := by
  have hr : resolvedToken sys c = "" := (resolvedToken_eq_empty sys c).2 ⟨htok, henv⟩
  have key : ∀ w, c.Webserver = some w → ∃ log, c.validate sys = .exit log := by
    intro w hw
    rw [Configuration_validate_eq sys c w hw]
    cases hA : (Atoi sys.arch (resolvedPort sys w)).2 with
    | some e => exact ⟨_, rfl⟩
    | none => simp [hr]
  refine ⟨?_, key, ?_⟩
  · intro log c2 h
    cases hw : c.Webserver with
    | none => rw [Configuration_validate_nil sys c hw] at h; cases h
    | some w =>
      obtain ⟨log2, h2⟩ := key w hw
      rw [h2] at h; cases h
  · intro w hw hA
    rw [Configuration_validate_eq sys c w hw]
    simp [hA, hr]

/-- Witness of C3: an empty token, no environment, port 9898. -/
theorem validate_no_token_is_fatal_witness :
    Configuration.validate (sysOf .bits64 [] ["a"]) ⟨some ⟨false, "9898"⟩, "", some ["a"]⟩
      = .exit ["a valid authentication token must be set"] :=
  (validate_no_token_is_fatal (sysOf .bits64 [] ["a"]) ⟨some ⟨false, "9898"⟩, "", some ["a"]⟩
    (by decide) (by decide)).2.2 ⟨false, "9898"⟩ rfl (by decide)

/-- C4: token resolution. Whenever `validate` reaches the token commit, on
the configuration `c1` and with `log` written so far, the token of `c1` (the
plaintext that `HashToken` hands to the hash function) is the input token when
that is not empty and the value of `WMR_TOKEN` otherwise, it is never the empty
string, and the rest of `validate` is the commit of exactly this plaintext
followed by the module step. -/
theorem validate_token_resolution (sys : Sys) (c c1 : Configuration) (log : List String)
    (h : c.beforeCommit sys = .ok log c1) :
    c1.Token = (if c.Token ≠ "" then c.Token else sys.Getenv WMR_TOKEN) ∧
    c1.Token ≠ "" ∧
    c1.HashToken sys =
      (match sys.GenerateFromPassword c1.Token 14 with
       | .error err => (c1, some err)
       | .ok bytes => ({ c1 with Token := bytes }, none)) ∧
    c.validate sys =
      (match sys.GenerateFromPassword c1.Token 14 with
       | .error _ => .exit (log ++ ["invalid token configuration"])
       | .ok bytes =>
         (Outcome.ok log { c1 with Token := bytes }).bind (Configuration.resolveModules sys)) := by
  have hv : c.validate sys =
      ((Outcome.ok log c1).bind (Configuration.commitToken sys)).bind
        (Configuration.resolveModules sys) := by
    unfold Configuration.validate; rw [h]
  cases hw : c.Webserver with
  | none =>
    simp [Configuration.beforeCommit, Configuration.validateWebserver, hw, Outcome.bind] at h
  | some w =>
    rw [beforeCommit_eq sys c w hw] at h
    cases hA : (Atoi sys.arch (resolvedPort sys w)).2 with
    | some e => rw [hA] at h; cases h
    | none =>
      rw [hA] at h
      by_cases ht : resolvedToken sys c = ""
      · simp [ht] at h
      · simp only [ht, if_false, Outcome.ok.injEq] at h
        obtain ⟨-, rfl⟩ := h
        refine ⟨rfl, ht, rfl, ?_⟩
        rw [hv]
        simp only [Outcome_ok_bind, Configuration.commitToken, Configuration.HashToken]
        cases sys.GenerateFromPassword (resolvedToken sys c) 14 <;> simp [Outcome.bind]

/-- Witness of C4: with an empty input token and `WMR_TOKEN` set to "tok", the
commit is reached with the plaintext "tok". -/
theorem validate_token_resolution_witness :
    Configuration.beforeCommit (sysOf .bits64 [("WMR_TOKEN", "tok")] ["a"])
        ⟨some ⟨false, ""⟩, "", some ["a"]⟩ = .ok [] ⟨some ⟨false, "9898"⟩, "tok", some ["a"]⟩ ∧
    (⟨some ⟨false, "9898"⟩, "tok", some ["a"]⟩ : Configuration).Token = "tok" ∧
    (⟨some ⟨false, "9898"⟩, "tok", some ["a"]⟩ : Configuration).Token ≠ "" :=
  ⟨by decide,
   (validate_token_resolution (sysOf .bits64 [("WMR_TOKEN", "tok")] ["a"])
      ⟨some ⟨false, ""⟩, "", some ["a"]⟩ ⟨some ⟨false, "9898"⟩, "tok", some ["a"]⟩ []
      (by decide)).1,
   (validate_token_resolution (sysOf .bits64 [("WMR_TOKEN", "tok")] ["a"])
      ⟨some ⟨false, ""⟩, "", some ["a"]⟩ ⟨some ⟨false, "9898"⟩, "tok", some ["a"]⟩ []
      (by decide)).2.1⟩

/-- C5 as stated fails: a module list that is present with length zero is not
nil, so with `WMR_MODULES` unset `validate` returns, with no module at all. -/
theorem validate_accepts_present_empty_module_list :
    (⟨some ⟨false, "9898"⟩, "secret", some []⟩ : Configuration).Modules = some [] ∧
    (sysOf .bits64 [] ["a"]).Getenv WMR_MODULES = "" ∧
    Configuration.validate (sysOf .bits64 [] ["a"]) ⟨some ⟨false, "9898"⟩, "secret", some []⟩
      = .ok [] ⟨some ⟨false, "9898"⟩, sampleHash, some []⟩ := by
  decide

/-- C5, amended: missing modules are fatal. When the module list of the input
is absent (the nil slice of a missing or null key) and `WMR_MODULES` is empty
or unset, `validate` never returns a configuration: it ends the process,
through `os.Exit(1)` whenever the configuration has a webserver (with the
message about the modules when the earlier checks pass). -/
theorem validate_missing_modules_is_fatal (sys : Sys) (c : Configuration)
    (hmod : c.Modules = none) (henv : sys.Getenv WMR_MODULES = "") :
    (∀ log c2, c.validate sys ≠ .ok log c2) ∧
    (∀ w, c.Webserver = some w → ∃ log, c.validate sys = .exit log) ∧
    (∀ w hash, c.Webserver = some w → (Atoi sys.arch (resolvedPort sys w)).2 = none →
      resolvedToken sys c ≠ "" → sys.GenerateFromPassword (resolvedToken sys c) 14 = .ok hash →
      c.validate sys = .exit (debugLog sys ++ ["at least a valid module must be set"])) := by
  have key : ∀ w, c.Webserver = some w → ∃ log, c.validate sys = .exit log := by
    intro w hw
    rw [Configuration_validate_eq sys c w hw]
    cases hA : (Atoi sys.arch (resolvedPort sys w)).2 with
    | some e => exact ⟨_, rfl⟩
    | none =>
      by_cases ht : resolvedToken sys c = ""
      · simp [ht]
      · cases hH : sys.GenerateFromPassword (resolvedToken sys c) 14 with
        | error e => simp [ht]
        | ok hash => simp [ht, hmod, henv]
  refine ⟨?_, key, ?_⟩
  · intro log c2 h
    cases hw : c.Webserver with
    | none => rw [Configuration_validate_nil sys c hw] at h; cases h
    | some w =>
      obtain ⟨log2, h2⟩ := key w hw
      rw [h2] at h; cases h
  · intro w hash hw hA ht hH
    rw [Configuration_validate_eq sys c w hw]
    simp [hA, ht, hH, hmod, henv]

/-- Witness of C5, amended: no module list, no environment, valid port and token. -/
theorem validate_missing_modules_is_fatal_witness :
    Configuration.validate (sysOf .bits64 [] ["a"]) ⟨some ⟨false, "9898"⟩, "secret", none⟩
      = .exit ["at least a valid module must be set"] :=
  (validate_missing_modules_is_fatal (sysOf .bits64 [] ["a"])
    ⟨some ⟨false, "9898"⟩, "secret", none⟩ rfl (by decide)).2.2
      ⟨false, "9898"⟩ sampleHash rfl (by decide) (by decide) rfl

/-- C6: module environment fallback. When the input omits the module list
and `WMR_MODULES` has the non-empty value E, with a port that converts, a
token that is not empty and a hash call that succeeds, `validate` returns and
the module list is the registry filter applied to E split on commas, in
order. -/
theorem validate_modules_from_environment (sys : Sys) (c : Configuration) (w : Webserver)
    (hash : String) (hw : c.Webserver = some w) (hmod : c.Modules = none)
    (hE : sys.Getenv WMR_MODULES ≠ "")
    (hport : (Atoi sys.arch (resolvedPort sys w)).2 = none)
    (htok : resolvedToken sys c ≠ "")
    (hhash : sys.GenerateFromPassword (resolvedToken sys c) 14 = .ok hash) :
    c.validate sys = .ok (debugLog sys)
      ⟨some ⟨resolvedDebug sys w, resolvedPort sys w⟩, hash,
        some ((Split (sys.Getenv WMR_MODULES) ',').filter (fun m => decide (m ∈ sys.Store)))⟩ := by
  rw [Configuration_validate_eq sys c w hw]
  simp [hport, htok, hhash, hmod, hE, loadModule_eq_filter]

/-- Witness of C6: E = "a,b,c" with registry {a,c} resolves to [a,c]. -/
theorem validate_modules_from_environment_witness :
    Configuration.validate (sysOf .bits64 [("WMR_MODULES", "a,b,c")] ["a", "c"])
        ⟨some ⟨false, "9898"⟩, "secret", none⟩
      = .ok [] ⟨some ⟨false, "9898"⟩, sampleHash, some ["a", "c"]⟩ :=
  validate_modules_from_environment (sysOf .bits64 [("WMR_MODULES", "a,b,c")] ["a", "c"])
    ⟨some ⟨false, "9898"⟩, "secret", none⟩ ⟨false, "9898"⟩ sampleHash rfl rfl
    (by decide) (by decide) (by decide) rfl

/-- C7: port resolution. After `Webserver.validate` succeeds the port is the
input port when that is not empty, else the value of `WMR_WEBSERVER_PORT`
when that is not empty, else "9898"; it succeeds whenever that string converts
with `Atoi`, and so it does, with port "9898", on an empty input port with no
environment override. -/
theorem Webserver_validate_port_resolution (sys : Sys) (w : Webserver) :
    (∀ log w2, w.validate sys = .ok log w2 →
      w2.Port = (if w.Port ≠ "" then w.Port
                 else if sys.Getenv WMR_WEBSERVER_PORT ≠ "" then sys.Getenv WMR_WEBSERVER_PORT
                 else "9898")) ∧
    ((Atoi sys.arch (resolvedPort sys w)).2 = none →
      w.validate sys = .ok (debugLog sys) ⟨resolvedDebug sys w, resolvedPort sys w⟩) ∧
    (w.Port = "" → sys.Getenv WMR_WEBSERVER_PORT = "" →
      w.validate sys = .ok (debugLog sys) ⟨resolvedDebug sys w, "9898"⟩) := by
  refine ⟨?_, ?_, ?_⟩
  · intro log w2 h
    rw [Webserver_validate_eq] at h
    cases hA : (Atoi sys.arch (resolvedPort sys w)).2 with
    | some e => rw [hA] at h; cases h
    | none =>
      rw [hA] at h
      simp only [Outcome.ok.injEq] at h
      obtain ⟨-, rfl⟩ := h
      rfl
  · intro hA
    rw [Webserver_validate_eq, hA]
  · intro h1 h2
    have hp : resolvedPort sys w = "9898" := by simp [resolvedPort, h1, h2]
    have hA : (Atoi sys.arch "9898").2 = none := by
      cases sys.arch <;> decide
    rw [Webserver_validate_eq, hp, hA]

/-- Witness of C7: an empty port resolves to the value of the environment, and
to "9898" without one. -/
theorem Webserver_validate_port_resolution_witness :
    Webserver.validate (sysOf .bits64 [] []) ⟨false, ""⟩ = .ok [] ⟨false, "9898"⟩ ∧
    Webserver.validate (sysOf .bits64 [("WMR_WEBSERVER_PORT", "8080")] []) ⟨false, ""⟩
      = .ok [] ⟨false, "8080"⟩ :=
  ⟨(Webserver_validate_port_resolution (sysOf .bits64 [] []) ⟨false, ""⟩).2.2 rfl (by decide),
   (Webserver_validate_port_resolution (sysOf .bits64 [("WMR_WEBSERVER_PORT", "8080")] [])
      ⟨false, ""⟩).2.1 (by decide)⟩

/-- C8: port well-formedness. `Webserver.validate` ends the process through
`os.Exit(1)`, naming the value, whenever the resolved port does not convert
with `Atoi`, as for "abc" from the input or from `WMR_WEBSERVER_PORT`; after
every successful validation the port converts with `Atoi`. -/
theorem Webserver_validate_port_wellformed (sys : Sys) (w : Webserver) :
    ((Atoi sys.arch (resolvedPort sys w)).2 ≠ none →
      w.validate sys = .exit [resolvedPort sys w ++ " is not a valid webserver port"]) ∧
    (w.Port = "abc" ∨ (w.Port = "" ∧ sys.Getenv WMR_WEBSERVER_PORT = "abc") →
      w.validate sys = .exit ["abc is not a valid webserver port"]) ∧
    (∀ log w2, w.validate sys = .ok log w2 → (Atoi sys.arch w2.Port).2 = none) := by
  refine ⟨?_, ?_, ?_⟩
  · intro hA
    rw [Webserver_validate_eq]
    cases hA2 : (Atoi sys.arch (resolvedPort sys w)).2 with
    | some e => rfl
    | none => exact absurd hA2 hA
  · intro h
    have hp : resolvedPort sys w = "abc" := by
      rcases h with h | ⟨h1, h2⟩
      · simp [resolvedPort, h]
      · simp [resolvedPort, h1, h2]
    have hA : (Atoi sys.arch "abc").2 = some .ErrSyntax := by
      cases sys.arch <;> decide
    rw [Webserver_validate_eq, hp, hA]
    rfl
  · intro log w2 h
    rw [Webserver_validate_eq] at h
    cases hA : (Atoi sys.arch (resolvedPort sys w)).2 with
    | some e => rw [hA] at h; cases h
    | none =>
      rw [hA] at h
      simp only [Outcome.ok.injEq] at h
      obtain ⟨-, rfl⟩ := h
      exact hA

/-- Witness of C8: the port "abc", from the input and from the environment. -/
theorem Webserver_validate_port_wellformed_witness :
    Webserver.validate (sysOf .bits64 [] []) ⟨false, "abc"⟩
      = .exit ["abc is not a valid webserver port"] ∧
    Webserver.validate (sysOf .bits32 [("WMR_WEBSERVER_PORT", "abc")] []) ⟨true, ""⟩
      = .exit ["abc is not a valid webserver port"] :=
  ⟨(Webserver_validate_port_wellformed (sysOf .bits64 [] []) ⟨false, "abc"⟩).2.1 (Or.inl rfl),
   (Webserver_validate_port_wellformed (sysOf .bits32 [("WMR_WEBSERVER_PORT", "abc")] [])
      ⟨true, ""⟩).2.1 (Or.inr ⟨rfl, by decide⟩)⟩

/-- C9 as stated fails: a well-formed decimal integer outside the range of
`int` does not convert, and the port check ends the process (2^63 on a 64-bit
target, a number of twenty digits on both targets). -/
theorem Webserver_validate_rejects_decimal_beyond_int :
    isDecimalInteger "9223372036854775808" = true ∧
    Webserver.validate (sysOf .bits64 [] []) ⟨false, "9223372036854775808"⟩
      = .exit ["9223372036854775808 is not a valid webserver port"] ∧
    isDecimalInteger "99999999999999999999" = true ∧
    Webserver.validate (sysOf .bits64 [] []) ⟨false, "99999999999999999999"⟩
      = .exit ["99999999999999999999 is not a valid webserver port"] ∧
    Webserver.validate (sysOf .bits32 [] []) ⟨false, "99999999999999999999"⟩
      = .exit ["99999999999999999999 is not a valid webserver port"] := by
  decide

/-- C9, amended: no range check on the port beyond that of `int`. For every
resolved port string that is a well-formed decimal integer (an optional sign
followed by one or more digits, of any length), the port check passes and
`Webserver.validate` succeeds if and only if the value fits the type `int` of
the target, from -2^(k-1) to 2^(k-1)-1 for k the width of `int`: zero,
negative numbers and values above 65535 are accepted, and a value outside the
range of `int` ends the process. -/
theorem Webserver_validate_decimal_port_iff_within_int (sys : Sys) (w : Webserver)
    (hwf : isDecimalInteger (resolvedPort sys w) = true) :
    ((∃ log w2, w.validate sys = .ok log w2) ↔
      (-(2 : Int) ^ (sys.arch.intSize - 1) ≤ decimalValue (resolvedPort sys w) ∧
        decimalValue (resolvedPort sys w) ≤ (2 : Int) ^ (sys.arch.intSize - 1) - 1)) ∧
    ((Atoi sys.arch (resolvedPort sys w)).2 = none ↔
      (-(2 : Int) ^ (sys.arch.intSize - 1) ≤ decimalValue (resolvedPort sys w) ∧
        decimalValue (resolvedPort sys w) ≤ (2 : Int) ^ (sys.arch.intSize - 1) - 1)) ∧
    ((-(2 : Int) ^ (sys.arch.intSize - 1) ≤ decimalValue (resolvedPort sys w) ∧
        decimalValue (resolvedPort sys w) ≤ (2 : Int) ^ (sys.arch.intSize - 1) - 1) →
      w.validate sys = .ok (debugLog sys) ⟨resolvedDebug sys w, resolvedPort sys w⟩) ∧
    (¬ (-(2 : Int) ^ (sys.arch.intSize - 1) ≤ decimalValue (resolvedPort sys w) ∧
        decimalValue (resolvedPort sys w) ≤ (2 : Int) ^ (sys.arch.intSize - 1) - 1) →
      w.validate sys = .exit [resolvedPort sys w ++ " is not a valid webserver port"]) := by
  have hiff := Atoi_decimal_iff sys.arch (resolvedPort sys w) hwf
  have hok : (Atoi sys.arch (resolvedPort sys w)).2 = none →
      w.validate sys = .ok (debugLog sys) ⟨resolvedDebug sys w, resolvedPort sys w⟩ := by
    intro hA
    rw [Webserver_validate_eq, hA]
  have hexit : (Atoi sys.arch (resolvedPort sys w)).2 ≠ none →
      w.validate sys = .exit [resolvedPort sys w ++ " is not a valid webserver port"] := by
    intro hA
    rw [Webserver_validate_eq]
    cases hA2 : (Atoi sys.arch (resolvedPort sys w)).2 with
    | some e => rfl
    | none => exact absurd hA2 hA
  refine ⟨⟨?_, ?_⟩, hiff, fun hr => hok (hiff.2 hr), fun hr => hexit (fun hA => hr (hiff.1 hA))⟩
  · rintro ⟨log, w2, h⟩
    by_cases hA : (Atoi sys.arch (resolvedPort sys w)).2 = none
    · exact hiff.1 hA
    · rw [hexit hA] at h
      cases h
  · intro hr
    exact ⟨_, _, hok (hiff.2 hr)⟩

/-- Witness of C9, amended: the ports "0", "-5", "70000", the largest `int` of
a 64-bit target and the number one written with thirty digits are accepted;
the number below the smallest `int` of a 64-bit target and 2^31 on a 32-bit
target are refused. -/
theorem Webserver_validate_decimal_port_iff_within_int_witness :
    Webserver.validate (sysOf .bits64 [] []) ⟨false, "0"⟩ = .ok [] ⟨false, "0"⟩ ∧
    Webserver.validate (sysOf .bits64 [] []) ⟨false, "-5"⟩ = .ok [] ⟨false, "-5"⟩ ∧
    Webserver.validate (sysOf .bits32 [] []) ⟨false, "70000"⟩ = .ok [] ⟨false, "70000"⟩ ∧
    Webserver.validate (sysOf .bits64 [] []) ⟨false, "9223372036854775807"⟩
      = .ok [] ⟨false, "9223372036854775807"⟩ ∧
    Webserver.validate (sysOf .bits64 [] []) ⟨false, "000000000000000000000000000001"⟩
      = .ok [] ⟨false, "000000000000000000000000000001"⟩ ∧
    Webserver.validate (sysOf .bits64 [] []) ⟨false, "-9223372036854775809"⟩
      = .exit ["-9223372036854775809 is not a valid webserver port"] ∧
    Webserver.validate (sysOf .bits32 [] []) ⟨false, "2147483648"⟩
      = .exit ["2147483648 is not a valid webserver port"] :=
  ⟨(Webserver_validate_decimal_port_iff_within_int (sysOf .bits64 [] []) ⟨false, "0"⟩
      (by decide)).2.2.1 (by decide),
   (Webserver_validate_decimal_port_iff_within_int (sysOf .bits64 [] []) ⟨false, "-5"⟩
      (by decide)).2.2.1 (by decide),
   (Webserver_validate_decimal_port_iff_within_int (sysOf .bits32 [] []) ⟨false, "70000"⟩
      (by decide)).2.2.1 (by decide),
   (Webserver_validate_decimal_port_iff_within_int (sysOf .bits64 [] [])
      ⟨false, "9223372036854775807"⟩ (by decide)).2.2.1 (by decide),
   (Webserver_validate_decimal_port_iff_within_int (sysOf .bits64 [] [])
      ⟨false, "000000000000000000000000000001"⟩ (by decide)).2.2.1 (by decide),
   (Webserver_validate_decimal_port_iff_within_int (sysOf .bits64 [] [])
      ⟨false, "-9223372036854775809"⟩ (by decide)).2.2.2 (by decide),
   (Webserver_validate_decimal_port_iff_within_int (sysOf .bits32 [] [])
      ⟨false, "2147483648"⟩ (by decide)).2.2.2 (by decide)⟩

/-- C10: debug resolution. After `Webserver.validate` succeeds the debug flag
is the boolean read from `WMR_WEBSERVER_DEBUG` when the variable is set and
reads as a boolean, whatever the input said, and the flag of the input
otherwise; the variable never makes validation fatal, which succeeds whenever
the port converts, and a value that does not read as a boolean, such as
"not-a-bool", is logged and leaves the flag as it was. -/
theorem Webserver_validate_debug_resolution (sys : Sys) (w : Webserver) :
    (∀ log w2, w.validate sys = .ok log w2 → w2.Debug = resolvedDebug sys w) ∧
    (∀ v b, sys.env WMR_WEBSERVER_DEBUG = some v → ParseBool v = .ok b →
      resolvedDebug sys w = b) ∧
    (∀ v e, sys.env WMR_WEBSERVER_DEBUG = some v → ParseBool v = .error e →
      resolvedDebug sys w = w.Debug) ∧
    (sys.env WMR_WEBSERVER_DEBUG = none → resolvedDebug sys w = w.Debug) ∧
    ((Atoi sys.arch (resolvedPort sys w)).2 = none →
      w.validate sys = .ok (debugLog sys) ⟨resolvedDebug sys w, resolvedPort sys w⟩) ∧
    (sys.env WMR_WEBSERVER_DEBUG = some "not-a-bool" →
      (Atoi sys.arch (resolvedPort sys w)).2 = none →
      w.validate sys
        = .ok ["not-a-bool is not a valid webserver port"] ⟨w.Debug, resolvedPort sys w⟩) := by
  refine ⟨?_, ?_, ?_, ?_, ?_, ?_⟩
  · intro log w2 h
    rw [Webserver_validate_eq] at h
    cases hA : (Atoi sys.arch (resolvedPort sys w)).2 with
    | some e => rw [hA] at h; cases h
    | none =>
      rw [hA] at h
      simp only [Outcome.ok.injEq] at h
      obtain ⟨-, rfl⟩ := h
      rfl
  · intro v b hv hb
    simp [resolvedDebug, hv, hb]
  · intro v e hv he
    simp [resolvedDebug, hv, he]
  · intro hv
    simp [resolvedDebug, hv]
  · intro hA
    rw [Webserver_validate_eq, hA]
  · intro hv hA
    have hb : ParseBool "not-a-bool" = .error .ErrSyntax := by decide
    have hg : sys.Getenv WMR_WEBSERVER_DEBUG = "not-a-bool" := by simp [Sys.Getenv, hv]
    have hne : ("not-a-bool" : String) ≠ "" := by decide
    rw [Webserver_validate_eq, hA]
    simp only [debugLog, resolvedDebug, hv, hg, hb, ne_eq, hne, not_false_eq_true, if_true]
    rfl

/-- Witness of C10: the environment overrides the input flag with "true", and
"not-a-bool" leaves it as the input set it. -/
theorem Webserver_validate_debug_resolution_witness :
    Webserver.validate (sysOf .bits64 [("WMR_WEBSERVER_DEBUG", "not-a-bool")] []) ⟨true, "80"⟩
      = .ok ["not-a-bool is not a valid webserver port"] ⟨true, "80"⟩ ∧
    resolvedDebug (sysOf .bits64 [("WMR_WEBSERVER_DEBUG", "true")] []) ⟨false, "80"⟩ = true ∧
    Webserver.validate (sysOf .bits64 [("WMR_WEBSERVER_DEBUG", "true")] []) ⟨false, "80"⟩
      = .ok [] ⟨true, "80"⟩ :=
  ⟨(Webserver_validate_debug_resolution
      (sysOf .bits64 [("WMR_WEBSERVER_DEBUG", "not-a-bool")] []) ⟨true, "80"⟩).2.2.2.2.2
      (by decide) (by decide),
   (Webserver_validate_debug_resolution
      (sysOf .bits64 [("WMR_WEBSERVER_DEBUG", "true")] []) ⟨false, "80"⟩).2.1 "true" true
      (by decide) (by decide),
   (Webserver_validate_debug_resolution
      (sysOf .bits64 [("WMR_WEBSERVER_DEBUG", "true")] []) ⟨false, "80"⟩).2.2.2.2.1 (by decide)⟩

/-- C11: post-validation module invariant. Whenever `validate` succeeds, the
resulting module list is a non-nil slice and each of its names is a key of
the module registry. -/
theorem validate_modules_are_registry_keys (sys : Sys) (c c2 : Configuration)
    (log : List String) (h : c.validate sys = .ok log c2) :
    ∃ ms, c2.Modules = some ms ∧ ∀ m ∈ ms, m ∈ sys.Store := by
  cases hw : c.Webserver with
  | none => rw [Configuration_validate_nil sys c hw] at h; cases h
  | some w =>
    rw [Configuration_validate_eq sys c w hw] at h
    cases hA : (Atoi sys.arch (resolvedPort sys w)).2 with
    | some e => rw [hA] at h; cases h
    | none =>
      rw [hA] at h
      by_cases ht : resolvedToken sys c = ""
      · simp [ht] at h
      · cases hH : sys.GenerateFromPassword (resolvedToken sys c) 14 with
        | error e => simp [ht, hH] at h
        | ok hash =>
          by_cases hm : c.Modules = none ∧ sys.Getenv WMR_MODULES = ""
          · simp [ht, hH, hm] at h
          · simp only [ht, hH, hm, if_false, Outcome.ok.injEq] at h
            obtain ⟨-, rfl⟩ := h
            refine ⟨_, rfl, ?_⟩
            intro m hmem
            rw [loadModule_eq_filter] at hmem
            simpa using (List.mem_filter.mp hmem).2

/-- Witness of C11: the input modules [a, x, b, a] with registry {a, b}
leave [a, b, a], all of them registry keys. -/
theorem validate_modules_are_registry_keys_witness :
    Configuration.validate (sysOf .bits64 [] ["a", "b"])
        ⟨some ⟨false, "9898"⟩, "secret", some ["a", "x", "b", "a"]⟩
      = .ok [] ⟨some ⟨false, "9898"⟩, sampleHash, some ["a", "b", "a"]⟩ ∧
    ∃ ms, (⟨some ⟨false, "9898"⟩, sampleHash, some ["a", "b", "a"]⟩ : Configuration).Modules
        = some ms ∧ ∀ m ∈ ms, m ∈ (sysOf .bits64 [] ["a", "b"]).Store :=
  ⟨by decide,
   validate_modules_are_registry_keys (sysOf .bits64 [] ["a", "b"])
     ⟨some ⟨false, "9898"⟩, "secret", some ["a", "x", "b", "a"]⟩
     ⟨some ⟨false, "9898"⟩, sampleHash, some ["a", "b", "a"]⟩ [] (by decide)⟩

/-- C13: the environment is consulted only where the input is empty. When
the input has a non-empty port, a non-empty token and a present module list,
replacing the environment by any other that gives `WMR_WEBSERVER_DEBUG` the
same value changes nothing: the outcome of `validate`, fatal or not, with its
port and modules, and the state at the commit with its plaintext token, are
the same, the port and the plaintext being those of the input. -/
theorem validate_ignores_environment_when_input_present (sys : Sys)
    (env2 : String → Option String) (c : Configuration) (w : Webserver) (ms : List String)
    (hdbg : ({ sys with env := env2 } : Sys).Getenv WMR_WEBSERVER_DEBUG
      = sys.Getenv WMR_WEBSERVER_DEBUG)
    (hw : c.Webserver = some w) (hport : w.Port ≠ "") (htok : c.Token ≠ "")
    (hmod : c.Modules = some ms) :
    c.validate { sys with env := env2 } = c.validate sys ∧
    c.beforeCommit { sys with env := env2 } = c.beforeCommit sys ∧
    resolvedPort sys w = w.Port ∧ resolvedToken sys c = c.Token ∧
    (∀ log c2, c.validate sys = .ok log c2 →
      ∃ d hash, c2 = ⟨some ⟨d, w.Port⟩, hash, some (loadModule sys ms)⟩) := by
  have hp : ∀ s : Sys, resolvedPort s w = w.Port := by
    intro s; simp [resolvedPort, hport]
  have ht : ∀ s : Sys, resolvedToken s c = c.Token := by
    intro s; simp [resolvedToken, htok]
  have hd : resolvedDebug { sys with env := env2 } w = resolvedDebug sys w := by
    rw [resolvedDebug_eq_Getenv, resolvedDebug_eq_Getenv, hdbg]
  have hl : debugLog { sys with env := env2 } = debugLog sys := by
    unfold debugLog; rw [hdbg]
  have hload : ∀ xs, loadModule { sys with env := env2 } xs = loadModule sys xs := fun _ => rfl
  refine ⟨?_, ?_, hp sys, ht sys, ?_⟩
  · rw [Configuration_validate_eq _ c w hw, Configuration_validate_eq _ c w hw]
    simp [hp, ht, hd, hl, hmod, hload]
  · rw [beforeCommit_eq _ c w hw, beforeCommit_eq _ c w hw]
    simp only [hp, ht, hd, hl]
  · intro log c2 h
    rw [Configuration_validate_eq sys c w hw, hp sys, ht sys] at h
    cases hA : (Atoi sys.arch w.Port).2 with
    | some e => rw [hA] at h; cases h
    | none =>
      rw [hA] at h
      cases hH : sys.GenerateFromPassword c.Token 14 with
      | error e => simp [htok, hH] at h
      | ok hash =>
        simp only [htok, hH, hmod, reduceCtorEq, false_and, if_false, Outcome.ok.injEq] at h
        obtain ⟨-, rfl⟩ := h
        exact ⟨_, _, rfl⟩

/-- Witness of C13: with port, token and modules in the input, setting
`WMR_WEBSERVER_PORT`, `WMR_TOKEN` and `WMR_MODULES` changes nothing. -/
theorem validate_ignores_environment_when_input_present_witness :
    Configuration.validate
        { sysOf .bits64 [] ["a", "b"] with
          env := fun k => [("WMR_WEBSERVER_PORT", "abc"), ("WMR_TOKEN", "other"),
            ("WMR_MODULES", "b")].lookup k }
        ⟨some ⟨false, "8080"⟩, "secret", some ["a"]⟩
      = Configuration.validate (sysOf .bits64 [] ["a", "b"])
          ⟨some ⟨false, "8080"⟩, "secret", some ["a"]⟩ :=
  (validate_ignores_environment_when_input_present (sysOf .bits64 [] ["a", "b"])
    (fun k => [("WMR_WEBSERVER_PORT", "abc"), ("WMR_TOKEN", "other"),
      ("WMR_MODULES", "b")].lookup k)
    ⟨some ⟨false, "8080"⟩, "secret", some ["a"]⟩ ⟨false, "8080"⟩ ["a"]
    (by decide) rfl (by decide) (by decide) rfl).1

/-- C14: the exact failure condition of validation. For a configuration with
a webserver, `validate` ends the process through `os.Exit(1)` if and only if
the resolved port does not convert, or the input token and `WMR_TOKEN` are
both empty, or the hash call returns an error, or the input module list is
missing and `WMR_MODULES` is empty; the checks are made in this order, each
with its own message; in every other case `validate` succeeds, and it never
panics. Names that the registry does not know are no failure. -/
theorem validate_fails_exactly_when (sys : Sys) (c : Configuration) (w : Webserver)
    (hw : c.Webserver = some w) :
    ((∃ log, c.validate sys = .exit log) ↔ validationFails sys c w) ∧
    ((∃ log c2, c.validate sys = .ok log c2) ↔ ¬ validationFails sys c w) ∧
    c.validate sys ≠ .panic ∧
    ((Atoi sys.arch (resolvedPort sys w)).2 ≠ none →
      c.validate sys = .exit [resolvedPort sys w ++ " is not a valid webserver port"]) ∧
    ((Atoi sys.arch (resolvedPort sys w)).2 = none → (c.Token = "" ∧ sys.Getenv WMR_TOKEN = "") →
      c.validate sys = .exit (debugLog sys ++ ["a valid authentication token must be set"])) ∧
    ((Atoi sys.arch (resolvedPort sys w)).2 = none → ¬ (c.Token = "" ∧ sys.Getenv WMR_TOKEN = "") →
      (∃ err, sys.GenerateFromPassword (resolvedToken sys c) 14 = .error err) →
      c.validate sys = .exit (debugLog sys ++ ["invalid token configuration"])) ∧
    ((Atoi sys.arch (resolvedPort sys w)).2 = none → ¬ (c.Token = "" ∧ sys.Getenv WMR_TOKEN = "") →
      (¬ ∃ err, sys.GenerateFromPassword (resolvedToken sys c) 14 = .error err) →
      (c.Modules = none ∧ sys.Getenv WMR_MODULES = "") →
      c.validate sys = .exit (debugLog sys ++ ["at least a valid module must be set"])) := by
  have htk := resolvedToken_eq_empty sys c
  rw [Configuration_validate_eq sys c w hw]
  unfold validationFails
  cases hA : (Atoi sys.arch (resolvedPort sys w)).2 with
  | some e => simp
  | none =>
    by_cases ht : c.Token = "" ∧ sys.Getenv WMR_TOKEN = ""
    · have hr : resolvedToken sys c = "" := htk.2 ht
      simp [hr, ht]
    · have hr : ¬ resolvedToken sys c = "" := fun h => ht (htk.1 h)
      cases hH : sys.GenerateFromPassword (resolvedToken sys c) 14 with
      | error e => simp [hr, ht]
      | ok hash =>
        by_cases hm : c.Modules = none ∧ sys.Getenv WMR_MODULES = ""
        · simp [hr, ht, hm]
        · simp [hr, ht, hm]

/-- Witness of C14: a module list of unknown names only is no failure, and
validation succeeds with an empty module list. -/
theorem validate_fails_exactly_when_witness :
    Configuration.validate (sysOf .bits64 [] ["a"]) ⟨some ⟨false, "9898"⟩, "secret", some ["x"]⟩
      = .ok [] ⟨some ⟨false, "9898"⟩, sampleHash, some []⟩ ∧
    ¬ validationFails (sysOf .bits64 [] ["a"]) ⟨some ⟨false, "9898"⟩, "secret", some ["x"]⟩
      ⟨false, "9898"⟩ :=
  ⟨by decide,
   (validate_fails_exactly_when (sysOf .bits64 [] ["a"])
      ⟨some ⟨false, "9898"⟩, "secret", some ["x"]⟩ ⟨false, "9898"⟩ rfl).2.1.mp
      ⟨[], ⟨some ⟨false, "9898"⟩, sampleHash, some []⟩, by decide⟩⟩

/-- C15: `loadModule` is idempotent and never lengthens its input. For every
registry and every list xs, filtering the result again gives the same list,
the result is no longer than xs, and the result is xs exactly when every
element of xs is a registry key. -/
theorem loadModule_idempotent_and_shrinking (sys : Sys) (xs : List String) :
    loadModule sys (loadModule sys xs) = loadModule sys xs ∧
    (loadModule sys xs).length ≤ xs.length ∧
    (loadModule sys xs = xs ↔ ∀ x ∈ xs, x ∈ sys.Store) := by
  refine ⟨?_, ?_, ?_⟩
  · simp only [loadModule_eq_filter, List.filter_filter, Bool.and_self]
  · rw [loadModule_eq_filter]
    exact List.length_filter_le _ _
  · rw [loadModule_eq_filter, List.filter_eq_self]
    simp

/-- C16: `HashToken` touches only the token. It leaves the webserver and the
modules as they were; when the hash function returns an error it returns that
error and leaves the token as it was, and when the hash function succeeds it
returns nil and stores the encoded hash as the token. -/
theorem HashToken_frame (sys : Sys) (c : Configuration) :
    (c.HashToken sys).1.Webserver = c.Webserver ∧
    (c.HashToken sys).1.Modules = c.Modules ∧
    (∀ err, sys.GenerateFromPassword c.Token 14 = .error err →
      c.HashToken sys = (c, some err)) ∧
    (∀ bytes, sys.GenerateFromPassword c.Token 14 = .ok bytes →
      c.HashToken sys = ({ c with Token := bytes }, none)) := by
  unfold Configuration.HashToken
  cases hH : sys.GenerateFromPassword c.Token 14 with
  | error e => simp
  | ok bytes => simp

/-- Witness of C16: a hash call that fails leaves the whole configuration as
it was, and one that succeeds replaces the token only. -/
theorem HashToken_frame_witness :
    Configuration.HashToken { sysOf .bits64 [] ["a"] with GenerateFromPassword := bcryptFails }
        ⟨some ⟨true, "80"⟩, "secret", some ["a"]⟩
      = (⟨some ⟨true, "80"⟩, "secret", some ["a"]⟩, some "unexpected EOF") ∧
    Configuration.HashToken (sysOf .bits64 [] ["a"]) ⟨some ⟨true, "80"⟩, "secret", some ["a"]⟩
      = (⟨some ⟨true, "80"⟩, sampleHash, some ["a"]⟩, none) :=
  ⟨(HashToken_frame { sysOf .bits64 [] ["a"] with GenerateFromPassword := bcryptFails }
      ⟨some ⟨true, "80"⟩, "secret", some ["a"]⟩).2.2.1 "unexpected EOF" rfl,
   (HashToken_frame (sysOf .bits64 [] ["a"])
      ⟨some ⟨true, "80"⟩, "secret", some ["a"]⟩).2.2.2 sampleHash rfl⟩

end Config
